import Mathlib

/-!
Verification of the memos-sync plugin (`src/main.ts`) against its
natural-language specification.

The development shallowly embeds the plugin's `sync` routine and its helper
functions (`getFileName`, `formatDateToFileFormat`, the watermark skip check,
the attachment loop, the deletion loops, the configuration guards) as pure
Lean functions.  Effectful host calls (`adapter.write`, `adapter.remove`,
`vault.createFolder`, `new Notice`, `saveData`, `console.error`) are recorded
as an event trace; the filesystem and network are supplied as explicit inputs
(`SyncInput`).  External library behavior that the code relies on is modelled
explicitly where it matters:

* `normalizePath` (obsidian): separators unified to `/`, runs of separators
  collapsed, leading/trailing separators stripped, empty result replaced by
  `/` (the NFC / non-breaking-space normalization is irrelevant here and
  omitted);
* `new Date(ms)` decomposition (JS): modelled as the UTC Gregorian civil
  decomposition `jsDate`;
* `getNoteContent` / `getAttachmentContent` (kirika): modelled as content
  carried on the note / attachment record, with an absent attachment content
  standing for a failed upstream fetch (a falsy result).

JavaScript truthiness tests that the code performs on optional numbers and
strings (`if (lastSyncTime && lastUpdated && ...)`, `if (!auth.baseUrl)`,
`memo.metadata.createdAt ? ... : ...`) are embedded faithfully: `0`,
the empty string and an absent value are falsy.
-/

namespace MemosSync

/-- Metadata of a remote note as delivered by the remote-fetch collaborator.
Timestamps are optional epoch numbers; `none` models an absent field. -/
structure NoteMetadata where
  createdAt : Option Nat
  updatedAt : Option Nat
  isArchived : Bool
deriving DecidableEq, Repr

/-- A remote note.  `content` carries the serialized document text that
`getNoteContent` (external kirika collaborator) returns for this note. -/
structure Note where
  id : String
  title : String
  content : String
  metadata : NoteMetadata
deriving DecidableEq, Repr

/-- A remote attachment.  `content` is the binary payload that
`getAttachmentContent` returns; `none` models a failed upstream fetch
(a falsy result in the code). -/
structure Resource where
  filename : String
  content : Option (List Nat)
deriving DecidableEq, Repr

/-- The result of `readMemosFromOpenAPI`. -/
structure ReadMemosResult where
  notes : List Note
  files : List Resource
deriving DecidableEq, Repr

/-- The `FileNameFormat` union type of `src/main.ts`. -/
inductive FileNameFormat where
  | id
  | created_at
  | updated_at
  | title
deriving DecidableEq, Repr

/-- The `Authorization` record used by the plugin settings. -/
structure Authorization where
  baseUrl : String
  accessToken : Option String
  openId : Option String
deriving DecidableEq, Repr

/-- `MemosSyncPluginSettings` of `src/main.ts`.  `lastSyncTime` is the
optional watermark in epoch milliseconds; the sync interval plays no role in
a single run and is omitted from the embedding. -/
structure MemosSyncPluginSettings where
  auth : Authorization
  folderToSync : String
  fileNameFormat : FileNameFormat
  lastSyncTime : Option Nat
deriving DecidableEq, Repr

/-- JavaScript truthiness of an optional number: absent and `0` are falsy. -/
def truthyTime : Option Nat → Bool
  | none => false
  | some t => t != 0

/-- JavaScript truthiness of an optional string: absent and `""` are falsy. -/
def truthyOptStr : Option String → Bool
  | none => false
  | some s => s != ""

/-- Collapse runs of `/` to a single `/` (character-list form): a slash
directly followed by another slash is dropped, so a run keeps only its last
slash. -/
def squashSlash : List Char → List Char
  | [] => []
  | [c] => [c]
  | c1 :: c2 :: rest =>
    if c1 = '/' && c2 = '/' then squashSlash (c2 :: rest)
    else c1 :: squashSlash (c2 :: rest)

/-- Model of obsidian's `normalizePath`: backslashes become `/`, runs of
separators collapse to one `/`, leading and trailing separators are removed,
and an empty result is replaced by `/`. -/
def normalizePath (p : String) : String :=
  let cs := p.data.map fun c => if c = '\\' then '/' else c
  let cs := squashSlash cs
  let cs := cs.dropWhile fun c => c = '/'
  let cs := (cs.reverse.dropWhile fun c => c = '/').reverse
  if cs.isEmpty then "/" else ⟨cs⟩

/-- The components of a JS `Date` that `formatDateToFileFormat` reads.
`month0` is the 0-based month returned by `getMonth()`. -/
structure DateParts where
  year : Nat
  month0 : Nat
  day : Nat
  hours : Nat
  minutes : Nat
deriving DecidableEq, Repr

/-- Model of `new Date(ms)` for a non-negative epoch-millisecond value:
the UTC Gregorian civil decomposition. -/
def jsDate (ms : Nat) : DateParts :=
  let days := ms / 86400000
  let rem := ms % 86400000
  let hours := rem / 3600000
  let minutes := rem % 3600000 / 60000
  let z := days + 719468
  let era := z / 146097
  let doe := z % 146097
  let yoe := (doe - doe / 1460 + doe / 36524 - doe / 146096) / 365
  let y := yoe + era * 400
  let doy := doe - (365 * yoe + yoe / 4 - yoe / 100)
  let mp := (5 * doy + 2) / 153
  let d := doy - (153 * mp + 2) / 5 + 1
  let m := if mp < 10 then mp + 3 else mp - 9
  let year := if m ≤ 2 then y + 1 else y
  { year := year, month0 := m - 1, day := d, hours := hours, minutes := minutes }

/-- `formatDateToFileFormat` of `src/main.ts`: `YYYY-M-D-H-MM` with no
zero padding (`getMonth() + 1` gives the 1-based month). -/
def formatDateToFileFormat (date : DateParts) : String :=
  toString date.year ++ "-" ++ toString (date.month0 + 1) ++ "-" ++
    toString date.day ++ "-" ++ toString date.hours ++ "-" ++
    toString date.minutes

/-- `getFileName` of `src/main.ts`.  The extra argument `now` is the current
time in epoch milliseconds: the code falls back to `new Date()` when the
relevant timestamp is falsy (absent or `0`). -/
def getFileName (now : Nat) (memo : Note) (format : FileNameFormat) : String :=
  match format with
  | .id => memo.id
  | .created_at =>
    formatDateToFileFormat (jsDate (match memo.metadata.createdAt with
      | some t => if t = 0 then now else t
      | none => now))
  | .updated_at =>
    formatDateToFileFormat (jsDate (match memo.metadata.updatedAt with
      | some t => if t = 0 then now else t
      | none => now))
  | .title => memo.title

/-- Model of kirika's `getNoteContent`: the serialized document text carried
on the note record. -/
def getNoteContent (memo : Note) : String := memo.content

/-- The watermark test of `sync`:
`if (lastSyncTime && lastUpdated && lastUpdated * 1000 < lastSyncTime)`.
JS truthiness makes an absent or zero value falsy. -/
def shouldSkipNote (lastSyncTime lastUpdated : Option Nat) : Bool :=
  match lastSyncTime, lastUpdated with
  | some w, some u => w != 0 && u != 0 && u * 1000 < w
  | _, _ => false

/-- The raw (un-normalized) note target path, exactly the template string
interpolated at lines building `memoPath` and `memosInAPI`:
`folderToSync + "/memos/" + getFileName(memo, fileNameFormat) + ".md"`. -/
def memoFileRaw (s : MemosSyncPluginSettings) (now : Nat) (memo : Note) : String :=
  s.folderToSync ++ "/memos/" ++ getFileName now memo s.fileNameFormat ++ ".md"

/-- The note write target: the raw note path passed through `normalizePath`. -/
def memoPath (s : MemosSyncPluginSettings) (now : Nat) (memo : Note) : String :=
  normalizePath (memoFileRaw s now memo)

/-- The raw (un-normalized) attachment target path:
`folderToSync + "/resources/" + resource.filename`. -/
def resourceFileRaw (s : MemosSyncPluginSettings) (r : Resource) : String :=
  s.folderToSync ++ "/resources/" ++ r.filename

/-- The attachment write target: the raw attachment path through
`normalizePath`. -/
def resourcePath (s : MemosSyncPluginSettings) (r : Resource) : String :=
  normalizePath (resourceFileRaw s r)

/-- `res.notes.filter((i) => !i.metadata.isArchived)` — the `memos` list of
`sync`. -/
def filteredMemos (res : ReadMemosResult) : List Note :=
  res.notes.filter fun i => !i.metadata.isArchived

/-- `memosInAPI` of `sync`: the retained note paths, built WITHOUT
`normalizePath`, from the full filtered list (independent of the watermark
skip decisions). -/
def memosInAPI (s : MemosSyncPluginSettings) (now : Nat) (res : ReadMemosResult) :
    List String :=
  (filteredMemos res).map (memoFileRaw s now)

/-- `resourcesInAPI` of `sync`: the retained attachment paths, built WITHOUT
`normalizePath`. -/
def resourcesInAPI (s : MemosSyncPluginSettings) (res : ReadMemosResult) :
    List String :=
  res.files.map (resourceFileRaw s)

/-- One observable host effect of a sync run.  Failed operations record the
recovered rejection of the corresponding promise together with its
`console.error` log. -/
inductive Event where
  | notice (msg : String)
  | log
  | mkdir (path : String)
  | write (path : String) (content : String)
  | writeFail (path : String)
  | skipWrite (path : String)
  | writeBin (path : String) (content : List Nat)
  | writeBinFail (path : String)
  | remove (path : String)
  | save (lastSyncTime : Nat)
  | saveFail
deriving DecidableEq, Repr

/-- The complete input of one `sync` invocation: the loaded settings, the
remote fetch outcome, a snapshot of the host filesystem, which host
operations fail, and the current time. -/
structure SyncInput where
  settings : MemosSyncPluginSettings
  /-- Outcome of `readMemosFromOpenAPI(auth)`; `error` models a rejected
  network/auth promise. -/
  fetch : Except Unit ReadMemosResult
  /-- Paths (files and folders) for which `adapter.exists` answers true at
  the start of the run. -/
  localFiles : List String
  /-- `adapter.list(folderToSync + "/memos").files`. -/
  memosListing : List String
  /-- `adapter.list(folderToSync + "/resources").files`. -/
  resourcesListing : List String
  /-- Paths whose `adapter.write` / `adapter.writeBinary` promise rejects. -/
  writeFailures : List String
  /-- Paths whose `adapter.remove` promise rejects. -/
  removeFailures : List String
  /-- Whether the final `saveData` promise rejects. -/
  saveFails : Bool
  /-- `Date.now()` in epoch milliseconds. -/
  now : Nat
deriving Repr

/-- Notice text: sync started. -/
def startedMsg : String := "Started syncing memos..."

/-- Notice text: the persistent failure notice of the outer catch. -/
def failedMsg : String :=
  "Failed to sync memos. Please check your authorization settings and network connection."

/-- Notice text: sync succeeded. -/
def successMsg : String := "Successfully synced memos."

/-- Notice text: missing base URL. -/
def baseUrlMsg : String := "Please enter the base URL."

/-- Notice text: missing access token and open ID. -/
def tokenMsg : String := "Please enter the access token or open ID."

/-- Notice text: the settings tab refusing an empty folder name. -/
def folderMsg : String := "Please enter the folder name."

/-- The folder-creation preamble of `sync`: create `folderToSync + "/memos"`
and `folderToSync + "/resources"` when `adapter.exists` denies them.  Returns
the emitted events and the list of folders created during this run. -/
def folderSetup (inp : SyncInput) : List Event × List String :=
  let s := inp.settings
  let memosFolder := s.folderToSync ++ "/memos"
  let resourcesFolder := s.folderToSync ++ "/resources"
  let p1 : List Event × List String :=
    if inp.localFiles.contains memosFolder then ([], [])
    else ([Event.mkdir memosFolder], [memosFolder])
  let p2 : List Event × List String :=
    if inp.localFiles.contains resourcesFolder then ([], p1.2)
    else ([Event.mkdir resourcesFolder], resourcesFolder :: p1.2)
  (p1.1 ++ p2.1, p2.2)

/-- The body of the `memos.forEach` callback of `sync` for one note: compute
the normalized target path and the content, apply the watermark test, then
either record the skip or attempt the write (a rejected write promise is
caught and logged, line `adapter.write(memoPath, memoContent).catch`). -/
def memoStep (inp : SyncInput) (memo : Note) : List Event :=
  let s := inp.settings
  let path := memoPath s inp.now memo
  if shouldSkipNote s.lastSyncTime memo.metadata.updatedAt then
    [Event.skipWrite path]
  else if inp.writeFailures.contains path then [Event.writeFail path]
  else [Event.write path (getNoteContent memo)]

/-- All events of the `memos.forEach` loop of `sync`. -/
def memoPhase (inp : SyncInput) (memos : List Note) : List Event :=
  (memos.map (memoStep inp)).flatten

/-- The recursive ancestor-folder creation for an attachment whose filename
contains `/`: for each proper prefix of the split filename, create the
normalized folder when `adapter.exists` denies it.  `created` accumulates
folders created earlier in the run (visible to later `exists` checks).
Returns the newly created folder paths in creation order and the updated
accumulator. -/
def ensureAncestors (inp : SyncInput) (created : List String) (r : Resource) :
    List String × List String :=
  if r.filename.contains '/' then
    let parts := r.filename.splitOn "/"
    (List.range (parts.length - 1)).foldl
      (fun acc i =>
        let folderPath := normalizePath
          (inp.settings.folderToSync ++ "/resources/" ++
            String.intercalate "/" (parts.take (i + 1)))
        if inp.localFiles.contains folderPath || acc.2.contains folderPath then
          acc
        else (acc.1 ++ [folderPath], folderPath :: acc.2))
      ([], created)
  else ([], created)

/-- The `for (const resource of res.files)` loop of `sync`.  NOTE: the two
`return` statements inside this loop exit the whole `sync` function (this is
a `for...of` loop, not a `forEach` callback), so an existing target file or
an absent attachment content aborts the loop AND the remainder of the run.
The boolean result is `true` when the loop ran to completion. -/
def resourceLoop (inp : SyncInput) :
    List Resource → List String → List Event × List String × Bool
  | [], created => ([], created, true)
  | r :: rest, created =>
    let s := inp.settings
    let path := resourcePath s r
    if inp.localFiles.contains path || created.contains path then
      ([], created, false)
    else
      let anc := ensureAncestors inp created r
      let folderEvents := anc.1.map Event.mkdir
      match r.content with
      | none => (folderEvents, anc.2, false)
      | some content =>
        let writeEvents :=
          if inp.writeFailures.contains path then [Event.writeBinFail path]
          else [Event.writeBin path content]
        let tail := resourceLoop inp rest anc.2
        (folderEvents ++ writeEvents ++ tail.1, tail.2.1, tail.2.2)

/-- One deletion loop of `sync` (`for (const f of listing) if (!retained
.includes(f)) await adapter.remove(f)`).  A rejected `remove` promise is NOT
caught per entry: it throws into the outer catch, so the boolean result is
`false` when a removal failed (remaining entries unprocessed). -/
def removeLoop (inp : SyncInput) (retained : List String) :
    List String → List Event × Bool
  | [] => ([], true)
  | p :: rest =>
    if retained.contains p then removeLoop inp retained rest
    else if inp.removeFailures.contains p then ([], false)
    else
      let tail := removeLoop inp retained rest
      (Event.remove p :: tail.1, tail.2)

/-- Events of the try body up to and including the attachment loop: folder
preamble, note loop, attachment loop. -/
def syncBase (inp : SyncInput) (res : ReadMemosResult) : List Event :=
  (folderSetup inp).1 ++ memoPhase inp (filteredMemos res) ++
    (resourceLoop inp res.files (folderSetup inp).2).1

/-- Whether the `for (const resource of res.files)` loop runs to completion,
i.e. no `return` (existing target file or absent content) ends the run. -/
def attachmentsOk (inp : SyncInput) (res : ReadMemosResult) : Bool :=
  (resourceLoop inp res.files (folderSetup inp).2).2.2

/-- Proposition form of `attachmentsOk`. -/
def attachmentLoopCompletes (inp : SyncInput) (res : ReadMemosResult) : Prop :=
  attachmentsOk inp res = true

instance (inp : SyncInput) (res : ReadMemosResult) :
    Decidable (attachmentLoopCompletes inp res) := by
  unfold attachmentLoopCompletes; infer_instance

/-- Events of the first deletion loop (`memosInVault`). -/
def memoRemoveEvents (inp : SyncInput) (res : ReadMemosResult) : List Event :=
  (removeLoop inp (memosInAPI inp.settings inp.now res) inp.memosListing).1

/-- Whether the first deletion loop finished without a rejected `remove`. -/
def memoRemoveOk (inp : SyncInput) (res : ReadMemosResult) : Bool :=
  (removeLoop inp (memosInAPI inp.settings inp.now res) inp.memosListing).2

/-- Events of the second deletion loop (`resourcesInVault`). -/
def resourceRemoveEvents (inp : SyncInput) (res : ReadMemosResult) : List Event :=
  (removeLoop inp (resourcesInAPI inp.settings res) inp.resourcesListing).1

/-- Whether the second deletion loop finished without a rejected `remove`. -/
def resourceRemoveOk (inp : SyncInput) (res : ReadMemosResult) : Bool :=
  (removeLoop inp (resourcesInAPI inp.settings res) inp.resourcesListing).2

/-- Events of the try body of `sync` after a successful fetch returning
`res`: base phase, then — unless the attachment loop returned out of the
function — the two deletion loops, the success notice and the watermark
`saveData`, with a rejected `remove` diverting to the outer catch. -/
def syncBody (inp : SyncInput) (res : ReadMemosResult) : List Event :=
  let base := syncBase inp res
  if !attachmentsOk inp res then base
  else if !memoRemoveOk inp res then
    base ++ memoRemoveEvents inp res ++ [Event.notice failedMsg, Event.log]
  else if !resourceRemoveOk inp res then
    base ++ memoRemoveEvents inp res ++ resourceRemoveEvents inp res ++
      [Event.notice failedMsg, Event.log]
  else
    base ++ memoRemoveEvents inp res ++ resourceRemoveEvents inp res ++
      [Event.notice successMsg] ++
      (if inp.saveFails then [Event.saveFail] else [Event.save inp.now])

/-- The event trace of one `sync()` invocation of `src/main.ts` (the
`for...of` variant).  Mirrors the source order: configuration guards, start
notice, remote fetch, archived filtering, folder preamble, note loop,
attachment loop (whose `return` ends the run silently), the two deletion
loops (whose failures throw into the outer catch), success notice, and the
`saveData` of the new watermark (its rejection caught and logged). -/
def sync (inp : SyncInput) : List Event :=
  let s := inp.settings
  if s.auth.baseUrl == "" then [Event.notice baseUrlMsg]
  else if !truthyOptStr s.auth.accessToken && !truthyOptStr s.auth.openId then
    [Event.notice tokenMsg]
  else
    Event.notice startedMsg ::
    match inp.fetch with
    | .error _ => [Event.notice failedMsg, Event.log]
    | .ok res => syncBody inp res

/-- The `onChange` handler of the "Folder to sync" text setting
(`MemosSyncSettingTab.display`): an empty value is refused with a notice and
the settings are left unchanged; otherwise the folder name is stored. -/
def folderToSyncOnChange (s : MemosSyncPluginSettings) (value : String) :
    MemosSyncPluginSettings × List Event :=
  if value == "" then (s, [Event.notice folderMsg])
  else ({ s with folderToSync := value }, [])

/-- The target of a write attempt (successful or failed, text or binary). -/
def writeTarget : Event → Option String
  | .write p _ => some p
  | .writeFail p => some p
  | .writeBin p _ => some p
  | .writeBinFail p => some p
  | _ => none

/-- Paths of all write attempts in a trace. -/
def writtenPaths (evs : List Event) : List String := evs.filterMap writeTarget

/-- The target of a watermark skip. -/
def skipTarget : Event → Option String
  | .skipWrite p => some p
  | _ => none

/-- Paths of all watermark-skipped notes in a trace. -/
def skippedPaths (evs : List Event) : List String := evs.filterMap skipTarget

/-- The target of a successful removal. -/
def removeTarget : Event → Option String
  | .remove p => some p
  | _ => none

/-- Paths of all successful removals in a trace. -/
def removedPaths (evs : List Event) : List String := evs.filterMap removeTarget

/-- The watermark stored by a successful `saveData`. -/
def saveTarget : Event → Option Nat
  | .save t => some t
  | _ => none

/-- Watermarks persisted in a trace. -/
def savedTimes (evs : List Event) : List Nat := evs.filterMap saveTarget

/-- The message of a notice event. -/
def noticeMsg : Event → Option String
  | .notice m => some m
  | _ => none

/-- Messages of all notices shown in a trace. -/
def noticeMsgs (evs : List Event) : List String := evs.filterMap noticeMsg

/-- Whether an event touches the filesystem (folder creation, write attempt,
removal). -/
def isFsEvent : Event → Bool
  | .mkdir _ => true
  | .write _ _ => true
  | .writeFail _ => true
  | .writeBin _ _ => true
  | .writeBinFail _ => true
  | .remove _ => true
  | _ => false

/-- Whether an event mutates persisted settings state. -/
def isSaveEvent : Event → Bool
  | .save _ => true
  | .saveFail => true
  | _ => false

/-! ## Concrete example inputs used by witnesses and counterexamples -/

/-- A well-formed authorization (base URL and access token present). -/
def okAuth : Authorization :=
  { baseUrl := "u", accessToken := some "t", openId := none }

/-- C1 example: settings with a set watermark. -/
def c1Settings : MemosSyncPluginSettings :=
  { auth := okAuth
    folderToSync := "F"
    fileNameFormat := .id
    lastSyncTime := some 5000000 }

/-- C1 example: a note last updated at epoch second 10. -/
def c1Note : Note :=
  { id := "a", title := "ta", content := "ca"
    metadata := { createdAt := none, updatedAt := some 10, isArchived := false } }

/-- C1 example input: watermark 5000000 ms, note updated at second 10. -/
def c1Input : SyncInput :=
  { settings := c1Settings
    fetch := Except.ok { notes := [c1Note], files := [] }
    localFiles := ["F/memos", "F/resources"]
    memosListing := []
    resourcesListing := []
    writeFailures := []
    removeFailures := []
    saveFails := false
    now := 0 }

/-- C1 example input without a watermark. -/
def c1InputNoWatermark : SyncInput :=
  { c1Input with settings := { c1Settings with lastSyncTime := none } }

/-- C10 example input: stored watermark equal to `0`. -/
def c10InputZeroWatermark : SyncInput :=
  { c1Input with settings := { c1Settings with lastSyncTime := some 0 } }

/-- C10 example: a note whose `updatedAt` equals `0`. -/
def c10NoteZero : Note :=
  { id := "z", title := "tz", content := "cz"
    metadata := { createdAt := none, updatedAt := some 0, isArchived := false } }

/-- C9 example: a note with no timestamps at all. -/
def c9Note : Note :=
  { id := "n", title := "tn", content := "cn"
    metadata := { createdAt := none, updatedAt := none, isArchived := false } }

/-- C9 example: a note with both timestamps present and nonzero. -/
def c9NoteStamped : Note :=
  { id := "n", title := "tn", content := "cn"
    metadata :=
      { createdAt := some 1700000000000
        updatedAt := some 1700000000000
        isArchived := false } }

/-- C7 example input: the remote fetch rejects. -/
def c7Input : SyncInput :=
  { settings :=
      { auth := okAuth
        folderToSync := "F"
        fileNameFormat := .id
        lastSyncTime := none }
    fetch := Except.error ()
    localFiles := []
    memosListing := ["F/memos/old.md"]
    resourcesListing := []
    writeFailures := []
    removeFailures := []
    saveFails := false
    now := 42 }

/-- C8 example note. -/
def c8Note : Note :=
  { id := "a", title := "ta", content := "ca"
    metadata := { createdAt := none, updatedAt := none, isArchived := false } }

/-- C8 counterexample input: an empty folder name with otherwise valid
configuration and a successful fetch. -/
def c8Input : SyncInput :=
  { settings :=
      { auth := okAuth
        folderToSync := ""
        fileNameFormat := .id
        lastSyncTime := none }
    fetch := Except.ok { notes := [c8Note], files := [] }
    localFiles := []
    memosListing := []
    resourcesListing := []
    writeFailures := []
    removeFailures := []
    saveFails := false
    now := 0 }

/-- C8 witness input: missing base URL. -/
def c8InputNoUrl : SyncInput :=
  { c8Input with settings :=
      { auth := { baseUrl := "", accessToken := some "t", openId := none }
        folderToSync := "F"
        fileNameFormat := .id
        lastSyncTime := none } }

/-- C8 witness input: base URL present but no credentials. -/
def c8InputNoCreds : SyncInput :=
  { c8Input with settings :=
      { auth := { baseUrl := "u", accessToken := none, openId := some "" }
        folderToSync := "F"
        fileNameFormat := .id
        lastSyncTime := none } }

/-- C3 example: an attachment whose target file already exists locally. -/
def c3Res1 : Resource := { filename := "a.png", content := some [1] }

/-- C3 example: a new attachment that should be written. -/
def c3Res2 : Resource := { filename := "b.png", content := some [2] }

/-- C3 failing input: the first attachment already exists, a second
attachment and a stale local file are pending. -/
def c3Input : SyncInput :=
  { settings :=
      { auth := okAuth
        folderToSync := "F"
        fileNameFormat := .id
        lastSyncTime := none }
    fetch := Except.ok { notes := [], files := [c3Res1, c3Res2] }
    localFiles := ["F/memos", "F/resources", "F/resources/a.png"]
    memosListing := []
    resourcesListing := ["F/resources/a.png", "F/resources/old.png"]
    writeFailures := []
    removeFailures := []
    saveFails := false
    now := 7 }

/-- C5 example note. -/
def c5Note : Note :=
  { id := "a", title := "ta", content := "ca"
    metadata := { createdAt := none, updatedAt := none, isArchived := false } }

/-- C5 counterexample input: the folder name carries a trailing slash, so
`normalizePath` changes the concatenated target path. -/
def c5Input : SyncInput :=
  { settings :=
      { auth := okAuth
        folderToSync := "f/"
        fileNameFormat := .id
        lastSyncTime := none }
    fetch := Except.ok { notes := [c5Note], files := [] }
    localFiles := ["f//memos", "f//resources"]
    memosListing := ["f/memos/a.md"]
    resourcesListing := []
    writeFailures := []
    removeFailures := []
    saveFails := false
    now := 0 }

/-- C5 witness remote snapshot: one note, no attachments. -/
def c5CleanRes : ReadMemosResult := { notes := [c5Note], files := [] }

/-- C5 witness input: a clean folder name, stale entries in both listings. -/
def c5CleanInput : SyncInput :=
  { settings :=
      { auth := okAuth
        folderToSync := "F"
        fileNameFormat := .id
        lastSyncTime := none }
    fetch := Except.ok c5CleanRes
    localFiles := ["F/memos", "F/resources"]
    memosListing := ["F/memos/stale.md", "F/memos/a.md"]
    resourcesListing := ["F/resources/x.png"]
    writeFailures := []
    removeFailures := []
    saveFails := false
    now := 0 }

/-- C4 example: an archived note. -/
def c4ArchNote : Note :=
  { id := "1", title := "x", content := ""
    metadata := { createdAt := none, updatedAt := none, isArchived := true } }

/-- C4 example: a non-archived note with the same title. -/
def c4ActiveNote : Note :=
  { id := "2", title := "x", content := "cx"
    metadata := { createdAt := none, updatedAt := none, isArchived := false } }

/-- C4 counterexample snapshot: an archived and a live note sharing one
title. -/
def c4Res : ReadMemosResult := { notes := [c4ArchNote, c4ActiveNote], files := [] }

/-- C4 counterexample input: `title` naming mode, the shared file exists. -/
def c4Input : SyncInput :=
  { settings :=
      { auth := okAuth
        folderToSync := "F"
        fileNameFormat := .title
        lastSyncTime := none }
    fetch := Except.ok c4Res
    localFiles := ["F/memos", "F/resources"]
    memosListing := ["F/memos/x.md"]
    resourcesListing := []
    writeFailures := []
    removeFailures := []
    saveFails := false
    now := 0 }

/-- C4 witness snapshot: one archived note, one live note, distinct ids. -/
def c4WRes : ReadMemosResult :=
  { notes := [c4ArchNote, { c4ActiveNote with id := "2", title := "y" }],
    files := [] }

/-- C4 witness input: `id` naming mode, the archived note's file exists. -/
def c4WInput : SyncInput :=
  { settings :=
      { auth := okAuth
        folderToSync := "F"
        fileNameFormat := .id
        lastSyncTime := none }
    fetch := Except.ok c4WRes
    localFiles := ["F/memos", "F/resources"]
    memosListing := ["F/memos/1.md", "F/memos/2.md"]
    resourcesListing := []
    writeFailures := []
    removeFailures := []
    saveFails := false
    now := 0 }

/-- C2 example: an attachment that already exists locally. -/
def c2Res : Resource := { filename := "pic.png", content := some [1] }

/-- C2 counterexample snapshot. -/
def c2CRes : ReadMemosResult := { notes := [], files := [c2Res] }

/-- C2 counterexample input: the existing attachment aborts the run before
the deletion phase, leaving a stale note file in place. -/
def c2Input : SyncInput :=
  { settings :=
      { auth := okAuth
        folderToSync := "F"
        fileNameFormat := .id
        lastSyncTime := none }
    fetch := Except.ok c2CRes
    localFiles := ["F/memos", "F/resources", "F/resources/pic.png"]
    memosListing := ["F/memos/stale.md"]
    resourcesListing := ["F/resources/pic.png"]
    writeFailures := []
    removeFailures := []
    saveFails := false
    now := 3 }

/-- C2 witness snapshot: empty remote. -/
def c2WRes : ReadMemosResult := { notes := [], files := [] }

/-- C2 witness input: empty remote, stale files in both listings. -/
def c2WInput : SyncInput :=
  { settings :=
      { auth := okAuth
        folderToSync := "F"
        fileNameFormat := .id
        lastSyncTime := none }
    fetch := Except.ok c2WRes
    localFiles := ["F/memos", "F/resources"]
    memosListing := ["F/memos/s1.md"]
    resourcesListing := ["F/resources/x.png"]
    writeFailures := []
    removeFailures := []
    saveFails := false
    now := 11 }

/-- C6 example snapshot: empty remote. -/
def c6Res : ReadMemosResult := { notes := [], files := [] }

/-- C6 counterexample input: removing the first stale file fails. -/
def c6Input : SyncInput :=
  { settings :=
      { auth := okAuth
        folderToSync := "F"
        fileNameFormat := .id
        lastSyncTime := none }
    fetch := Except.ok c6Res
    localFiles := ["F/memos", "F/resources"]
    memosListing := ["F/memos/s1.md", "F/memos/s2.md"]
    resourcesListing := []
    writeFailures := []
    removeFailures := ["F/memos/s1.md"]
    saveFails := false
    now := 9 }

/-- C6 witness note. -/
def c6WNote : Note :=
  { id := "a", title := "ta", content := "ca"
    metadata := { createdAt := none, updatedAt := none, isArchived := false } }

/-- C6 witness snapshot: one note. -/
def c6WRes : ReadMemosResult := { notes := [c6WNote], files := [] }

/-- C6 witness input: the note's write fails, removals succeed. -/
def c6WInput : SyncInput :=
  { settings :=
      { auth := okAuth
        folderToSync := "F"
        fileNameFormat := .id
        lastSyncTime := none }
    fetch := Except.ok c6WRes
    localFiles := ["F/memos", "F/resources"]
    memosListing := ["F/memos/stale.md"]
    resourcesListing := []
    writeFailures := ["F/memos/a.md"]
    removeFailures := []
    saveFails := false
    now := 13 }

/-! ## Trace projection lemmas -/

theorem writtenPaths_append (a b : List Event) :
    writtenPaths (a ++ b) = writtenPaths a ++ writtenPaths b := by
  simp [writtenPaths]

theorem removedPaths_append (a b : List Event) :
    removedPaths (a ++ b) = removedPaths a ++ removedPaths b := by
  simp [removedPaths]

theorem savedTimes_append (a b : List Event) :
    savedTimes (a ++ b) = savedTimes a ++ savedTimes b := by
  simp [savedTimes]

theorem skippedPaths_append (a b : List Event) :
    skippedPaths (a ++ b) = skippedPaths a ++ skippedPaths b := by
  simp [skippedPaths]

theorem noticeMsgs_append (a b : List Event) :
    noticeMsgs (a ++ b) = noticeMsgs a ++ noticeMsgs b := by
  simp [noticeMsgs]

theorem writtenPaths_map_mkdir (l : List String) :
    writtenPaths (l.map Event.mkdir) = [] := by
  induction l with
  | nil => rfl
  | cons p rest ih => simp [writtenPaths, writeTarget]

theorem removedPaths_map_mkdir (l : List String) :
    removedPaths (l.map Event.mkdir) = [] := by
  induction l with
  | nil => rfl
  | cons p rest ih => simp [removedPaths, removeTarget]

theorem savedTimes_map_mkdir (l : List String) :
    savedTimes (l.map Event.mkdir) = [] := by
  induction l with
  | nil => rfl
  | cons p rest ih => simp [savedTimes, saveTarget]

theorem noticeMsgs_map_mkdir (l : List String) :
    noticeMsgs (l.map Event.mkdir) = [] := by
  induction l with
  | nil => rfl
  | cons p rest ih => simp [noticeMsgs, noticeMsg]

theorem filterMap_comp_remove (l : List String) :
    List.filterMap (removeTarget ∘ Event.remove) l = l := by
  induction l with
  | nil => rfl
  | cons p rest ih =>
    have hp : removeTarget (Event.remove p) = some p := rfl
    simp [List.filterMap_cons, hp, ih]

theorem removedPaths_map_remove (l : List String) :
    removedPaths (l.map Event.remove) = l := by
  induction l with
  | nil => rfl
  | cons p rest ih => simpa [removedPaths, removeTarget] using ih

/-! ## Phase lemmas: folder preamble -/

theorem writtenPaths_folderSetup (inp : SyncInput) :
    writtenPaths (folderSetup inp).1 = [] := by
  by_cases h1 : inp.settings.folderToSync ++ "/memos" ∈ inp.localFiles <;>
    by_cases h2 : inp.settings.folderToSync ++ "/resources" ∈ inp.localFiles <;>
    simp [folderSetup, h1, h2, writtenPaths, writeTarget]

theorem removedPaths_folderSetup (inp : SyncInput) :
    removedPaths (folderSetup inp).1 = [] := by
  by_cases h1 : inp.settings.folderToSync ++ "/memos" ∈ inp.localFiles <;>
    by_cases h2 : inp.settings.folderToSync ++ "/resources" ∈ inp.localFiles <;>
    simp [folderSetup, h1, h2, removedPaths, removeTarget]

theorem savedTimes_folderSetup (inp : SyncInput) :
    savedTimes (folderSetup inp).1 = [] := by
  by_cases h1 : inp.settings.folderToSync ++ "/memos" ∈ inp.localFiles <;>
    by_cases h2 : inp.settings.folderToSync ++ "/resources" ∈ inp.localFiles <;>
    simp [folderSetup, h1, h2, savedTimes, saveTarget]

theorem noticeMsgs_folderSetup (inp : SyncInput) :
    noticeMsgs (folderSetup inp).1 = [] := by
  by_cases h1 : inp.settings.folderToSync ++ "/memos" ∈ inp.localFiles <;>
    by_cases h2 : inp.settings.folderToSync ++ "/resources" ∈ inp.localFiles <;>
    simp [folderSetup, h1, h2, noticeMsgs, noticeMsg]

/-! ## Phase lemmas: the note loop -/

theorem writtenPaths_memoStep (inp : SyncInput) (memo : Note) :
    writtenPaths (memoStep inp memo) =
      if shouldSkipNote inp.settings.lastSyncTime memo.metadata.updatedAt then
        []
      else [memoPath inp.settings inp.now memo] := by
  cases h : shouldSkipNote inp.settings.lastSyncTime memo.metadata.updatedAt <;>
    by_cases hw : memoPath inp.settings inp.now memo ∈ inp.writeFailures <;>
    simp [memoStep, h, hw, writtenPaths, writeTarget]

theorem skippedPaths_memoStep (inp : SyncInput) (memo : Note) :
    skippedPaths (memoStep inp memo) =
      if shouldSkipNote inp.settings.lastSyncTime memo.metadata.updatedAt then
        [memoPath inp.settings inp.now memo]
      else [] := by
  cases h : shouldSkipNote inp.settings.lastSyncTime memo.metadata.updatedAt <;>
    by_cases hw : memoPath inp.settings inp.now memo ∈ inp.writeFailures <;>
    simp [memoStep, h, hw, skippedPaths, skipTarget]

theorem removedPaths_memoStep (inp : SyncInput) (memo : Note) :
    removedPaths (memoStep inp memo) = [] := by
  cases h : shouldSkipNote inp.settings.lastSyncTime memo.metadata.updatedAt <;>
    by_cases hw : memoPath inp.settings inp.now memo ∈ inp.writeFailures <;>
    simp [memoStep, h, hw, removedPaths, removeTarget]

theorem savedTimes_memoStep (inp : SyncInput) (memo : Note) :
    savedTimes (memoStep inp memo) = [] := by
  cases h : shouldSkipNote inp.settings.lastSyncTime memo.metadata.updatedAt <;>
    by_cases hw : memoPath inp.settings inp.now memo ∈ inp.writeFailures <;>
    simp [memoStep, h, hw, savedTimes, saveTarget]

theorem noticeMsgs_memoStep (inp : SyncInput) (memo : Note) :
    noticeMsgs (memoStep inp memo) = [] := by
  cases h : shouldSkipNote inp.settings.lastSyncTime memo.metadata.updatedAt <;>
    by_cases hw : memoPath inp.settings inp.now memo ∈ inp.writeFailures <;>
    simp [memoStep, h, hw, noticeMsgs, noticeMsg]

theorem memoPhase_cons (inp : SyncInput) (m : Note) (ms : List Note) :
    memoPhase inp (m :: ms) = memoStep inp m ++ memoPhase inp ms := by
  simp [memoPhase]

theorem mem_writtenPaths_memoPhase (inp : SyncInput) (memos : List Note)
    (q : String) (hq : q ∈ writtenPaths (memoPhase inp memos)) :
    ∃ n, n ∈ memos ∧ q = memoPath inp.settings inp.now n := by
  induction memos with
  | nil => simp [memoPhase, writtenPaths] at hq
  | cons m ms ih =>
    rw [memoPhase_cons, writtenPaths_append, List.mem_append] at hq
    rcases hq with hq | hq
    · rw [writtenPaths_memoStep] at hq
      refine ⟨m, List.mem_cons_self m ms, ?_⟩
      cases h : shouldSkipNote inp.settings.lastSyncTime m.metadata.updatedAt <;>
        simp [h] at hq
      exact hq
    · obtain ⟨n, hn, hqn⟩ := ih hq
      exact ⟨n, List.mem_cons_of_mem m hn, hqn⟩

theorem removedPaths_memoPhase (inp : SyncInput) (memos : List Note) :
    removedPaths (memoPhase inp memos) = [] := by
  induction memos with
  | nil => simp [memoPhase, removedPaths]
  | cons m ms ih =>
    rw [memoPhase_cons, removedPaths_append, removedPaths_memoStep, ih]
    rfl

theorem savedTimes_memoPhase (inp : SyncInput) (memos : List Note) :
    savedTimes (memoPhase inp memos) = [] := by
  induction memos with
  | nil => simp [memoPhase, savedTimes]
  | cons m ms ih =>
    rw [memoPhase_cons, savedTimes_append, savedTimes_memoStep, ih]
    rfl

theorem noticeMsgs_memoPhase (inp : SyncInput) (memos : List Note) :
    noticeMsgs (memoPhase inp memos) = [] := by
  induction memos with
  | nil => simp [memoPhase, noticeMsgs]
  | cons m ms ih =>
    rw [memoPhase_cons, noticeMsgs_append, noticeMsgs_memoStep, ih]
    rfl

/-! ## Phase lemmas: the attachment loop -/

theorem resourceLoop_cons_stop (inp : SyncInput) (r : Resource)
    (rest : List Resource) (created : List String)
    (hex : resourcePath inp.settings r ∈ inp.localFiles ∨
      resourcePath inp.settings r ∈ created) :
    resourceLoop inp (r :: rest) created = ([], created, false) := by
  simp [resourceLoop, hex]

theorem resourceLoop_cons_noContent (inp : SyncInput) (r : Resource)
    (rest : List Resource) (created : List String)
    (hex : ¬ (resourcePath inp.settings r ∈ inp.localFiles ∨
      resourcePath inp.settings r ∈ created))
    (hc : r.content = none) :
    resourceLoop inp (r :: rest) created =
      ((ensureAncestors inp created r).1.map Event.mkdir,
        (ensureAncestors inp created r).2, false) := by
  simp [resourceLoop, hex, hc]

theorem resourceLoop_cons_write (inp : SyncInput) (r : Resource)
    (rest : List Resource) (created : List String) (content : List Nat)
    (hex : ¬ (resourcePath inp.settings r ∈ inp.localFiles ∨
      resourcePath inp.settings r ∈ created))
    (hc : r.content = some content) :
    resourceLoop inp (r :: rest) created =
      ((ensureAncestors inp created r).1.map Event.mkdir ++
        (if resourcePath inp.settings r ∈ inp.writeFailures then
          [Event.writeBinFail (resourcePath inp.settings r)]
         else [Event.writeBin (resourcePath inp.settings r) content]) ++
        (resourceLoop inp rest (ensureAncestors inp created r).2).1,
       (resourceLoop inp rest (ensureAncestors inp created r).2).2.1,
       (resourceLoop inp rest (ensureAncestors inp created r).2).2.2) := by
  simp [resourceLoop, hex, hc]

theorem mem_writtenPaths_resourceLoop (inp : SyncInput) :
    ∀ (rs : List Resource) (created : List String) (q : String),
      q ∈ writtenPaths (resourceLoop inp rs created).1 →
      ∃ r, r ∈ rs ∧ q = resourcePath inp.settings r := by
  intro rs
  induction rs with
  | nil =>
    intro created q hq
    simp [resourceLoop, writtenPaths] at hq
  | cons r rest ih =>
    intro created q hq
    by_cases hex : resourcePath inp.settings r ∈ inp.localFiles ∨
        resourcePath inp.settings r ∈ created
    · rw [resourceLoop_cons_stop inp r rest created hex] at hq
      simp [writtenPaths] at hq
    · cases hc : r.content with
      | none =>
        rw [resourceLoop_cons_noContent inp r rest created hex hc] at hq
        rw [writtenPaths_map_mkdir] at hq
        simp at hq
      | some content =>
        rw [resourceLoop_cons_write inp r rest created content hex hc] at hq
        rw [writtenPaths_append, writtenPaths_append,
          writtenPaths_map_mkdir] at hq
        simp only [List.nil_append, List.mem_append] at hq
        rcases hq with hq | hq
        · refine ⟨r, List.mem_cons_self r rest, ?_⟩
          by_cases hw : resourcePath inp.settings r ∈ inp.writeFailures
          · rw [if_pos hw] at hq
            simp [writtenPaths, writeTarget] at hq
            exact hq
          · rw [if_neg hw] at hq
            simp [writtenPaths, writeTarget] at hq
            exact hq
        · obtain ⟨r2, hr2, hq2⟩ := ih _ q hq
          exact ⟨r2, List.mem_cons_of_mem r hr2, hq2⟩

theorem removedPaths_resourceLoop (inp : SyncInput) :
    ∀ (rs : List Resource) (created : List String),
      removedPaths (resourceLoop inp rs created).1 = [] := by
  intro rs
  induction rs with
  | nil => intro created; simp [resourceLoop, removedPaths]
  | cons r rest ih =>
    intro created
    by_cases hex : resourcePath inp.settings r ∈ inp.localFiles ∨
        resourcePath inp.settings r ∈ created
    · rw [resourceLoop_cons_stop inp r rest created hex]
      simp [removedPaths]
    · cases hc : r.content with
      | none =>
        rw [resourceLoop_cons_noContent inp r rest created hex hc]
        exact removedPaths_map_mkdir _
      | some content =>
        rw [resourceLoop_cons_write inp r rest created content hex hc]
        rw [removedPaths_append, removedPaths_append, removedPaths_map_mkdir,
          ih]
        by_cases hw : resourcePath inp.settings r ∈ inp.writeFailures <;>
          simp [hw, removedPaths, removeTarget]

theorem savedTimes_resourceLoop (inp : SyncInput) :
    ∀ (rs : List Resource) (created : List String),
      savedTimes (resourceLoop inp rs created).1 = [] := by
  intro rs
  induction rs with
  | nil => intro created; simp [resourceLoop, savedTimes]
  | cons r rest ih =>
    intro created
    by_cases hex : resourcePath inp.settings r ∈ inp.localFiles ∨
        resourcePath inp.settings r ∈ created
    · rw [resourceLoop_cons_stop inp r rest created hex]
      simp [savedTimes]
    · cases hc : r.content with
      | none =>
        rw [resourceLoop_cons_noContent inp r rest created hex hc]
        exact savedTimes_map_mkdir _
      | some content =>
        rw [resourceLoop_cons_write inp r rest created content hex hc]
        rw [savedTimes_append, savedTimes_append, savedTimes_map_mkdir, ih]
        by_cases hw : resourcePath inp.settings r ∈ inp.writeFailures <;>
          simp [hw, savedTimes, saveTarget]

theorem noticeMsgs_resourceLoop (inp : SyncInput) :
    ∀ (rs : List Resource) (created : List String),
      noticeMsgs (resourceLoop inp rs created).1 = [] := by
  intro rs
  induction rs with
  | nil => intro created; simp [resourceLoop, noticeMsgs]
  | cons r rest ih =>
    intro created
    by_cases hex : resourcePath inp.settings r ∈ inp.localFiles ∨
        resourcePath inp.settings r ∈ created
    · rw [resourceLoop_cons_stop inp r rest created hex]
      simp [noticeMsgs]
    · cases hc : r.content with
      | none =>
        rw [resourceLoop_cons_noContent inp r rest created hex hc]
        exact noticeMsgs_map_mkdir _
      | some content =>
        rw [resourceLoop_cons_write inp r rest created content hex hc]
        rw [noticeMsgs_append, noticeMsgs_append, noticeMsgs_map_mkdir, ih]
        by_cases hw : resourcePath inp.settings r ∈ inp.writeFailures <;>
          simp [hw, noticeMsgs, noticeMsg]

/-! ## Phase lemmas: the deletion loops -/

theorem mem_removedPaths_removeLoop (inp : SyncInput) (retained : List String) :
    ∀ (lst : List String) (q : String),
      q ∈ removedPaths (removeLoop inp retained lst).1 →
      q ∈ lst ∧ q ∉ retained := by
  intro lst
  induction lst with
  | nil => intro q hq; simp [removeLoop, removedPaths] at hq
  | cons p rest ih =>
    intro q hq
    by_cases hr : p ∈ retained
    · have hstep : removeLoop inp retained (p :: rest) =
          removeLoop inp retained rest := by
        simp [removeLoop, hr]
      rw [hstep] at hq
      obtain ⟨h1, h2⟩ := ih q hq
      exact ⟨List.mem_cons_of_mem p h1, h2⟩
    · by_cases hf : p ∈ inp.removeFailures
      · have hstep : removeLoop inp retained (p :: rest) = ([], false) := by
          simp [removeLoop, hr, hf]
        rw [hstep] at hq
        simp [removedPaths] at hq
      · have hstep : removeLoop inp retained (p :: rest) =
            (Event.remove p :: (removeLoop inp retained rest).1,
              (removeLoop inp retained rest).2) := by
          simp [removeLoop, hr, hf]
        rw [hstep] at hq
        simp only [removedPaths, List.filterMap_cons, removeTarget] at hq
        rcases List.mem_cons.1 hq with hq | hq
        · subst hq; exact ⟨List.mem_cons_self _ _, hr⟩
        · obtain ⟨h1, h2⟩ := ih q hq
          exact ⟨List.mem_cons_of_mem p h1, h2⟩

theorem removeLoop_no_failures (inp : SyncInput) (retained : List String)
    (h : inp.removeFailures = []) :
    ∀ lst : List String,
      removeLoop inp retained lst =
        ((lst.filter fun p => !retained.contains p).map Event.remove, true) := by
  intro lst
  induction lst with
  | nil => simp [removeLoop]
  | cons p rest ih =>
    by_cases hr : p ∈ retained <;> simp [removeLoop, hr, h, ih]

theorem writtenPaths_removeLoop (inp : SyncInput) (retained : List String) :
    ∀ lst : List String, writtenPaths (removeLoop inp retained lst).1 = [] := by
  intro lst
  induction lst with
  | nil => simp [removeLoop, writtenPaths]
  | cons p rest ih =>
    by_cases hr : p ∈ retained
    · simpa [removeLoop, hr] using ih
    · by_cases hf : p ∈ inp.removeFailures
      · simp [removeLoop, hr, hf, writtenPaths]
      · simp [removeLoop, hr, hf, writtenPaths, writeTarget]
        simpa [writtenPaths] using ih

theorem savedTimes_removeLoop (inp : SyncInput) (retained : List String) :
    ∀ lst : List String, savedTimes (removeLoop inp retained lst).1 = [] := by
  intro lst
  induction lst with
  | nil => simp [removeLoop, savedTimes]
  | cons p rest ih =>
    by_cases hr : p ∈ retained
    · simpa [removeLoop, hr] using ih
    · by_cases hf : p ∈ inp.removeFailures
      · simp [removeLoop, hr, hf, savedTimes]
      · simp [removeLoop, hr, hf, savedTimes, saveTarget]
        simpa [savedTimes] using ih

theorem noticeMsgs_removeLoop (inp : SyncInput) (retained : List String) :
    ∀ lst : List String, noticeMsgs (removeLoop inp retained lst).1 = [] := by
  intro lst
  induction lst with
  | nil => simp [removeLoop, noticeMsgs]
  | cons p rest ih =>
    by_cases hr : p ∈ retained
    · simpa [removeLoop, hr] using ih
    · by_cases hf : p ∈ inp.removeFailures
      · simp [removeLoop, hr, hf, noticeMsgs]
      · simp [removeLoop, hr, hf, noticeMsgs, noticeMsg]
        simpa [noticeMsgs] using ih

/-! ## Run-level lemmas -/

theorem sync_baseUrl_empty (inp : SyncInput)
    (h : inp.settings.auth.baseUrl = "") :
    sync inp = [Event.notice baseUrlMsg] := by
  simp [sync, h]

theorem sync_missing_credentials (inp : SyncInput)
    (h1 : inp.settings.auth.baseUrl ≠ "")
    (h2 : truthyOptStr inp.settings.auth.accessToken = false)
    (h3 : truthyOptStr inp.settings.auth.openId = false) :
    sync inp = [Event.notice tokenMsg] := by
  simp [sync, h1, h2, h3]

theorem sync_fetch_error (inp : SyncInput)
    (h1 : inp.settings.auth.baseUrl ≠ "")
    (h2 : truthyOptStr inp.settings.auth.accessToken = true ∨
      truthyOptStr inp.settings.auth.openId = true)
    (h3 : inp.fetch = Except.error ()) :
    sync inp = [Event.notice startedMsg, Event.notice failedMsg, Event.log] := by
  rcases h2 with h2 | h2 <;> simp [sync, h1, h2, h3]

theorem sync_fetch_ok (inp : SyncInput) (res : ReadMemosResult)
    (h1 : inp.settings.auth.baseUrl ≠ "")
    (h2 : truthyOptStr inp.settings.auth.accessToken = true ∨
      truthyOptStr inp.settings.auth.openId = true)
    (h3 : inp.fetch = Except.ok res) :
    sync inp = Event.notice startedMsg :: syncBody inp res := by
  rcases h2 with h2 | h2 <;> simp [sync, h1, h2, h3]

theorem removedPaths_syncBase (inp : SyncInput) (res : ReadMemosResult) :
    removedPaths (syncBase inp res) = [] := by
  rw [syncBase, removedPaths_append, removedPaths_append,
    removedPaths_folderSetup, removedPaths_memoPhase,
    removedPaths_resourceLoop]
  rfl

theorem savedTimes_syncBase (inp : SyncInput) (res : ReadMemosResult) :
    savedTimes (syncBase inp res) = [] := by
  rw [syncBase, savedTimes_append, savedTimes_append,
    savedTimes_folderSetup, savedTimes_memoPhase, savedTimes_resourceLoop]
  rfl

theorem noticeMsgs_syncBase (inp : SyncInput) (res : ReadMemosResult) :
    noticeMsgs (syncBase inp res) = [] := by
  rw [syncBase, noticeMsgs_append, noticeMsgs_append,
    noticeMsgs_folderSetup, noticeMsgs_memoPhase, noticeMsgs_resourceLoop]
  rfl

theorem mem_writtenPaths_syncBase (inp : SyncInput) (res : ReadMemosResult)
    (q : String) (hq : q ∈ writtenPaths (syncBase inp res)) :
    (∃ n, n ∈ filteredMemos res ∧ q = memoPath inp.settings inp.now n) ∨
    (∃ r, r ∈ res.files ∧ q = resourcePath inp.settings r) := by
  rw [syncBase, writtenPaths_append, writtenPaths_append,
    writtenPaths_folderSetup] at hq
  simp only [List.nil_append, List.mem_append] at hq
  rcases hq with hq | hq
  · exact Or.inl (mem_writtenPaths_memoPhase inp (filteredMemos res) q hq)
  · exact Or.inr (mem_writtenPaths_resourceLoop inp res.files _ q hq)

theorem writtenPaths_syncBody (inp : SyncInput) (res : ReadMemosResult) :
    writtenPaths (syncBody inp res) = writtenPaths (syncBase inp res) := by
  cases hr : attachmentsOk inp res
  · simp [syncBody, hr]
  · cases hm : memoRemoveOk inp res
    · simp only [syncBody, hr, hm, Bool.not_true, Bool.not_false, if_true,
        if_false, Bool.true_eq_false, Bool.false_eq_true]
      rw [writtenPaths_append, writtenPaths_append]
      rw [show memoRemoveEvents inp res =
        (removeLoop inp (memosInAPI inp.settings inp.now res)
          inp.memosListing).1 from rfl]
      rw [writtenPaths_removeLoop]
      simp [writtenPaths, writeTarget]
    · cases hs : resourceRemoveOk inp res
      · simp only [syncBody, hr, hm, hs, Bool.not_true, Bool.not_false,
          if_true, if_false, Bool.true_eq_false, Bool.false_eq_true]
        rw [writtenPaths_append, writtenPaths_append, writtenPaths_append]
        rw [show memoRemoveEvents inp res =
          (removeLoop inp (memosInAPI inp.settings inp.now res)
            inp.memosListing).1 from rfl]
        rw [show resourceRemoveEvents inp res =
          (removeLoop inp (resourcesInAPI inp.settings res)
            inp.resourcesListing).1 from rfl]
        rw [writtenPaths_removeLoop, writtenPaths_removeLoop]
        simp [writtenPaths, writeTarget]
      · simp only [syncBody, hr, hm, hs, Bool.not_true, Bool.not_false,
          if_true, if_false, Bool.true_eq_false, Bool.false_eq_true]
        rw [writtenPaths_append, writtenPaths_append, writtenPaths_append,
          writtenPaths_append]
        rw [show memoRemoveEvents inp res =
          (removeLoop inp (memosInAPI inp.settings inp.now res)
            inp.memosListing).1 from rfl]
        rw [show resourceRemoveEvents inp res =
          (removeLoop inp (resourcesInAPI inp.settings res)
            inp.resourcesListing).1 from rfl]
        rw [writtenPaths_removeLoop, writtenPaths_removeLoop]
        cases hsf : inp.saveFails <;> simp [writtenPaths, writeTarget]

theorem mem_writtenPaths_sync (inp : SyncInput) (res : ReadMemosResult)
    (q : String) (hf : inp.fetch = Except.ok res)
    (hq : q ∈ writtenPaths (sync inp)) :
    (∃ n, n ∈ filteredMemos res ∧ q = memoPath inp.settings inp.now n) ∨
    (∃ r, r ∈ res.files ∧ q = resourcePath inp.settings r) := by
  by_cases h1 : inp.settings.auth.baseUrl = ""
  · rw [sync_baseUrl_empty inp h1] at hq
    simp [writtenPaths, writeTarget] at hq
  · cases ha : truthyOptStr inp.settings.auth.accessToken
    · cases ho : truthyOptStr inp.settings.auth.openId
      · rw [sync_missing_credentials inp h1 ha ho] at hq
        simp [writtenPaths, writeTarget] at hq
      · rw [sync_fetch_ok inp res h1 (Or.inr ho) hf] at hq
        rw [show (Event.notice startedMsg :: syncBody inp res) =
          ([Event.notice startedMsg] ++ syncBody inp res) from rfl,
          writtenPaths_append, writtenPaths_syncBody] at hq
        exact mem_writtenPaths_syncBase inp res q
          (by simpa [writtenPaths, writeTarget] using hq)
    · rw [sync_fetch_ok inp res h1 (Or.inl ha) hf] at hq
      rw [show (Event.notice startedMsg :: syncBody inp res) =
        ([Event.notice startedMsg] ++ syncBody inp res) from rfl,
        writtenPaths_append, writtenPaths_syncBody] at hq
      exact mem_writtenPaths_syncBase inp res q
        (by simpa [writtenPaths, writeTarget] using hq)

theorem mem_removedPaths_syncBody (inp : SyncInput) (res : ReadMemosResult)
    (q : String) (hq : q ∈ removedPaths (syncBody inp res)) :
    (q ∈ inp.memosListing ∧ q ∉ memosInAPI inp.settings inp.now res) ∨
    (q ∈ inp.resourcesListing ∧ q ∉ resourcesInAPI inp.settings res) := by
  cases hr : attachmentsOk inp res
  · rw [syncBody] at hq
    simp only [hr, Bool.not_false, if_true] at hq
    rw [removedPaths_syncBase] at hq
    simp at hq
  · cases hm : memoRemoveOk inp res
    · rw [syncBody] at hq
      simp only [hr, hm, Bool.not_true, Bool.not_false, if_true, if_false,
        Bool.true_eq_false, Bool.false_eq_true] at hq
      rw [removedPaths_append, removedPaths_append,
        removedPaths_syncBase] at hq
      simp only [List.nil_append, List.mem_append] at hq
      rcases hq with hq | hq
      · exact Or.inl (mem_removedPaths_removeLoop inp _ inp.memosListing q hq)
      · simp [removedPaths, removeTarget] at hq
    · cases hs : resourceRemoveOk inp res
      · rw [syncBody] at hq
        simp only [hr, hm, hs, Bool.not_true, Bool.not_false, if_true,
          if_false, Bool.true_eq_false, Bool.false_eq_true] at hq
        rw [removedPaths_append, removedPaths_append, removedPaths_append,
          removedPaths_syncBase] at hq
        simp only [List.nil_append, List.mem_append] at hq
        rcases hq with (hq | hq) | hq
        · exact Or.inl (mem_removedPaths_removeLoop inp _ inp.memosListing q hq)
        · exact Or.inr
            (mem_removedPaths_removeLoop inp _ inp.resourcesListing q hq)
        · simp [removedPaths, removeTarget] at hq
      · rw [syncBody] at hq
        simp only [hr, hm, hs, Bool.not_true, Bool.not_false, if_true,
          if_false, Bool.true_eq_false, Bool.false_eq_true] at hq
        rw [removedPaths_append, removedPaths_append, removedPaths_append,
          removedPaths_append, removedPaths_syncBase] at hq
        simp only [List.nil_append, List.mem_append] at hq
        rcases hq with ((hq | hq) | hq) | hq
        · exact Or.inl (mem_removedPaths_removeLoop inp _ inp.memosListing q hq)
        · exact Or.inr
            (mem_removedPaths_removeLoop inp _ inp.resourcesListing q hq)
        · simp [removedPaths, removeTarget] at hq
        · cases hsf : inp.saveFails <;>
            simp [hsf, removedPaths, removeTarget] at hq

theorem mem_removedPaths_sync (inp : SyncInput) (res : ReadMemosResult)
    (q : String) (hf : inp.fetch = Except.ok res)
    (hq : q ∈ removedPaths (sync inp)) :
    (q ∈ inp.memosListing ∧ q ∉ memosInAPI inp.settings inp.now res) ∨
    (q ∈ inp.resourcesListing ∧ q ∉ resourcesInAPI inp.settings res) := by
  by_cases h1 : inp.settings.auth.baseUrl = ""
  · rw [sync_baseUrl_empty inp h1] at hq
    simp [removedPaths, removeTarget] at hq
  · cases ha : truthyOptStr inp.settings.auth.accessToken
    · cases ho : truthyOptStr inp.settings.auth.openId
      · rw [sync_missing_credentials inp h1 ha ho] at hq
        simp [removedPaths, removeTarget] at hq
      · rw [sync_fetch_ok inp res h1 (Or.inr ho) hf] at hq
        refine mem_removedPaths_syncBody inp res q ?_
        simpa [removedPaths, removeTarget] using hq
    · rw [sync_fetch_ok inp res h1 (Or.inl ha) hf] at hq
      refine mem_removedPaths_syncBody inp res q ?_
      simpa [removedPaths, removeTarget] using hq

theorem removedPaths_syncBody_complete (inp : SyncInput)
    (res : ReadMemosResult) (hr : attachmentsOk inp res = true)
    (hrf : inp.removeFailures = []) :
    removedPaths (syncBody inp res) =
      (inp.memosListing.filter fun p =>
        !(memosInAPI inp.settings inp.now res).contains p) ++
      (inp.resourcesListing.filter fun p =>
        !(resourcesInAPI inp.settings res).contains p) := by
  have hm : memoRemoveOk inp res = true := by
    rw [memoRemoveOk, removeLoop_no_failures inp _ hrf]
  have hs : resourceRemoveOk inp res = true := by
    rw [resourceRemoveOk, removeLoop_no_failures inp _ hrf]
  rw [syncBody]
  simp only [hr, hm, hs, Bool.not_true, if_false, Bool.true_eq_false,
    Bool.false_eq_true]
  simp only [removedPaths_append]
  rw [removedPaths_syncBase]
  rw [show memoRemoveEvents inp res =
    (removeLoop inp (memosInAPI inp.settings inp.now res)
      inp.memosListing).1 from rfl]
  rw [show resourceRemoveEvents inp res =
    (removeLoop inp (resourcesInAPI inp.settings res)
      inp.resourcesListing).1 from rfl]
  rw [removeLoop_no_failures inp _ hrf, removeLoop_no_failures inp _ hrf]
  cases hsf : inp.saveFails <;>
    simp [removedPaths_map_remove, removedPaths, removeTarget,
      filterMap_comp_remove]

theorem savedTimes_syncBody (inp : SyncInput) (res : ReadMemosResult) :
    savedTimes (syncBody inp res) =
      if attachmentsOk inp res && memoRemoveOk inp res &&
          resourceRemoveOk inp res && !inp.saveFails then [inp.now]
      else [] := by
  cases hr : attachmentsOk inp res
  · simp only [syncBody, hr, Bool.not_false, if_true, Bool.false_and]
    rw [savedTimes_syncBase]
    rfl
  · cases hm : memoRemoveOk inp res
    · simp only [syncBody, hr, hm, Bool.not_true, Bool.not_false, if_true,
        if_false, Bool.true_eq_false, Bool.false_eq_true]
      rw [savedTimes_append, savedTimes_append, savedTimes_syncBase]
      rw [show memoRemoveEvents inp res =
        (removeLoop inp (memosInAPI inp.settings inp.now res)
          inp.memosListing).1 from rfl]
      rw [savedTimes_removeLoop]
      simp [savedTimes, saveTarget]
    · cases hs : resourceRemoveOk inp res
      · simp only [syncBody, hr, hm, hs, Bool.not_true, Bool.not_false,
          if_true, if_false, Bool.true_eq_false, Bool.false_eq_true]
        rw [savedTimes_append, savedTimes_append, savedTimes_append,
          savedTimes_syncBase]
        rw [show memoRemoveEvents inp res =
          (removeLoop inp (memosInAPI inp.settings inp.now res)
            inp.memosListing).1 from rfl]
        rw [show resourceRemoveEvents inp res =
          (removeLoop inp (resourcesInAPI inp.settings res)
            inp.resourcesListing).1 from rfl]
        rw [savedTimes_removeLoop, savedTimes_removeLoop]
        simp [savedTimes, saveTarget]
      · simp only [syncBody, hr, hm, hs, Bool.not_true, Bool.not_false,
          if_true, if_false, Bool.true_eq_false, Bool.false_eq_true]
        rw [savedTimes_append, savedTimes_append, savedTimes_append,
          savedTimes_append, savedTimes_syncBase]
        rw [show memoRemoveEvents inp res =
          (removeLoop inp (memosInAPI inp.settings inp.now res)
            inp.memosListing).1 from rfl]
        rw [show resourceRemoveEvents inp res =
          (removeLoop inp (resourcesInAPI inp.settings res)
            inp.resourcesListing).1 from rfl]
        rw [savedTimes_removeLoop, savedTimes_removeLoop]
        cases hsf : inp.saveFails <;>
          simp [savedTimes, saveTarget]

theorem noticeMsgs_syncBody (inp : SyncInput) (res : ReadMemosResult) :
    noticeMsgs (syncBody inp res) =
      if !attachmentsOk inp res then []
      else if !memoRemoveOk inp res || !resourceRemoveOk inp res then
        [failedMsg]
      else [successMsg] := by
  cases hr : attachmentsOk inp res
  · simp only [syncBody, hr, Bool.not_false, if_true]
    rw [noticeMsgs_syncBase]
  · cases hm : memoRemoveOk inp res
    · simp only [syncBody, hr, hm, Bool.not_true, Bool.not_false, if_true,
        if_false, Bool.true_eq_false, Bool.false_eq_true, Bool.true_or]
      rw [noticeMsgs_append, noticeMsgs_append, noticeMsgs_syncBase]
      rw [show memoRemoveEvents inp res =
        (removeLoop inp (memosInAPI inp.settings inp.now res)
          inp.memosListing).1 from rfl]
      rw [noticeMsgs_removeLoop]
      simp [noticeMsgs, noticeMsg]
    · cases hs : resourceRemoveOk inp res
      · simp only [syncBody, hr, hm, hs, Bool.not_true, Bool.not_false,
          if_true, if_false, Bool.true_eq_false, Bool.false_eq_true,
          Bool.or_true]
        rw [noticeMsgs_append, noticeMsgs_append, noticeMsgs_append,
          noticeMsgs_syncBase]
        rw [show memoRemoveEvents inp res =
          (removeLoop inp (memosInAPI inp.settings inp.now res)
            inp.memosListing).1 from rfl]
        rw [show resourceRemoveEvents inp res =
          (removeLoop inp (resourcesInAPI inp.settings res)
            inp.resourcesListing).1 from rfl]
        rw [noticeMsgs_removeLoop, noticeMsgs_removeLoop]
        simp [noticeMsgs, noticeMsg]
      · simp only [syncBody, hr, hm, hs, Bool.not_true, Bool.not_false,
          if_true, if_false, Bool.true_eq_false, Bool.false_eq_true,
          Bool.or_self]
        rw [noticeMsgs_append, noticeMsgs_append, noticeMsgs_append,
          noticeMsgs_append, noticeMsgs_syncBase]
        rw [show memoRemoveEvents inp res =
          (removeLoop inp (memosInAPI inp.settings inp.now res)
            inp.memosListing).1 from rfl]
        rw [show resourceRemoveEvents inp res =
          (removeLoop inp (resourcesInAPI inp.settings res)
            inp.resourcesListing).1 from rfl]
        rw [noticeMsgs_removeLoop, noticeMsgs_removeLoop]
        cases hsf : inp.saveFails <;>
          simp [noticeMsgs, noticeMsg]

theorem writtenPaths_sync_ok (inp : SyncInput) (res : ReadMemosResult)
    (hb : inp.settings.auth.baseUrl ≠ "")
    (hc : truthyOptStr inp.settings.auth.accessToken = true ∨
      truthyOptStr inp.settings.auth.openId = true)
    (hf : inp.fetch = Except.ok res) :
    writtenPaths (sync inp) = writtenPaths (syncBody inp res) := by
  rw [sync_fetch_ok inp res hb hc hf]
  simp [writtenPaths, List.filterMap_cons, writeTarget]

theorem removedPaths_sync_ok (inp : SyncInput) (res : ReadMemosResult)
    (hb : inp.settings.auth.baseUrl ≠ "")
    (hc : truthyOptStr inp.settings.auth.accessToken = true ∨
      truthyOptStr inp.settings.auth.openId = true)
    (hf : inp.fetch = Except.ok res) :
    removedPaths (sync inp) = removedPaths (syncBody inp res) := by
  rw [sync_fetch_ok inp res hb hc hf]
  simp [removedPaths, List.filterMap_cons, removeTarget]

theorem savedTimes_sync_ok (inp : SyncInput) (res : ReadMemosResult)
    (hb : inp.settings.auth.baseUrl ≠ "")
    (hc : truthyOptStr inp.settings.auth.accessToken = true ∨
      truthyOptStr inp.settings.auth.openId = true)
    (hf : inp.fetch = Except.ok res) :
    savedTimes (sync inp) = savedTimes (syncBody inp res) := by
  rw [sync_fetch_ok inp res hb hc hf]
  simp [savedTimes, List.filterMap_cons, saveTarget]

theorem noticeMsgs_sync_ok (inp : SyncInput) (res : ReadMemosResult)
    (hb : inp.settings.auth.baseUrl ≠ "")
    (hc : truthyOptStr inp.settings.auth.accessToken = true ∨
      truthyOptStr inp.settings.auth.openId = true)
    (hf : inp.fetch = Except.ok res) :
    noticeMsgs (sync inp) = startedMsg :: noticeMsgs (syncBody inp res) := by
  rw [sync_fetch_ok inp res hb hc hf]
  simp [noticeMsgs, List.filterMap_cons, noticeMsg]

theorem shouldSkipNote_none_left (u : Option Nat) :
    shouldSkipNote none u = false := by
  cases u <;> rfl

theorem shouldSkipNote_none_right (w : Option Nat) :
    shouldSkipNote w none = false := by
  cases w <;> rfl

theorem shouldSkipNote_zero_left (u : Option Nat) :
    shouldSkipNote (some 0) u = false := by
  cases u <;> simp [shouldSkipNote]

theorem shouldSkipNote_zero_right (w : Option Nat) :
    shouldSkipNote w (some 0) = false := by
  cases w <;> simp [shouldSkipNote]

/-! ## Claims -/

/-- C1: watermark skip law for notes.  `memoStep` is the per-note body of
the `memos.forEach` loop of `sync`; a note whose target path is `p` is
"skipped" when `memoStep` records only the skip marker for `p`, and
"(re)written" when `memoStep` attempts a write of `p`.  If the watermark and
the note's `remoteUpdatedAt` are both set (present and nonzero — `0` is
falsy for the code's JS truthiness test, see C10) and
`remoteUpdatedAt * 1000 < watermark`, the note is skipped and not written;
if the watermark or the timestamp is absent, a write of the note's target
path is attempted unconditionally. -/
theorem c1_watermark_skip_law (inp : SyncInput) (memo : Note) :
    ((∃ w u, inp.settings.lastSyncTime = some w ∧ w ≠ 0 ∧
        memo.metadata.updatedAt = some u ∧ u ≠ 0 ∧ u * 1000 < w) →
      writtenPaths (memoStep inp memo) = [] ∧
      skippedPaths (memoStep inp memo) =
        [memoPath inp.settings inp.now memo]) ∧
    ((inp.settings.lastSyncTime = none ∨ memo.metadata.updatedAt = none) →
      writtenPaths (memoStep inp memo) =
        [memoPath inp.settings inp.now memo] ∧
      skippedPaths (memoStep inp memo) = []) := by
  constructor
  · rintro ⟨w, u, hw, hw0, hu, hu0, hlt⟩
    have hskip : shouldSkipNote inp.settings.lastSyncTime
        memo.metadata.updatedAt = true := by
      rw [hw, hu]
      simp only [shouldSkipNote, Bool.and_eq_true, bne_iff_ne, ne_eq,
        decide_eq_true_eq]
      exact ⟨⟨hw0, hu0⟩, hlt⟩
    rw [writtenPaths_memoStep, skippedPaths_memoStep, hskip]
    simp
  · intro h
    have hskip : shouldSkipNote inp.settings.lastSyncTime
        memo.metadata.updatedAt = false := by
      rcases h with h | h
      · rw [h, shouldSkipNote_none_left]
      · rw [h, shouldSkipNote_none_right]
    rw [writtenPaths_memoStep, skippedPaths_memoStep, hskip]
    simp

/-- Witness for C1: at watermark 5000000 ms and `updatedAt = 10` s the note
(target `F/memos/a.md`) is skipped, and without a watermark it is written. -/
theorem c1_watermark_skip_law_witness :
    (writtenPaths (memoStep c1Input c1Note) = [] ∧
      skippedPaths (memoStep c1Input c1Note) = ["F/memos/a.md"]) ∧
    (writtenPaths (memoStep c1InputNoWatermark c1Note) = ["F/memos/a.md"] ∧
      skippedPaths (memoStep c1InputNoWatermark c1Note) = []) :=
  ⟨(c1_watermark_skip_law c1Input c1Note).1
      ⟨5000000, 10, rfl, by decide, rfl, by decide, by decide⟩,
    (c1_watermark_skip_law c1InputNoWatermark c1Note).2 (Or.inl rfl)⟩

/-- C10: a stored watermark equal to `0`, or a note whose `remoteUpdatedAt`
equals `0`, behaves exactly like an absent value in the skip test (JS
truthiness: `0` is falsy), so the note is unconditionally rewritten: the
per-note body attempts the write and records no skip. -/
theorem c10_zero_timestamp (inp : SyncInput) (memo : Note)
    (h : inp.settings.lastSyncTime = some 0 ∨
      memo.metadata.updatedAt = some 0) :
    writtenPaths (memoStep inp memo) = [memoPath inp.settings inp.now memo] ∧
    skippedPaths (memoStep inp memo) = [] := by
  have hskip : shouldSkipNote inp.settings.lastSyncTime
      memo.metadata.updatedAt = false := by
    rcases h with h | h
    · rw [h, shouldSkipNote_zero_left]
    · rw [h, shouldSkipNote_zero_right]
  rw [writtenPaths_memoStep, skippedPaths_memoStep, hskip]
  simp

/-- Witness for C10: a zero watermark and a zero `updatedAt` each leave the
note in the write set. -/
theorem c10_zero_timestamp_witness :
    (writtenPaths (memoStep c10InputZeroWatermark c1Note) = ["F/memos/a.md"] ∧
      skippedPaths (memoStep c10InputZeroWatermark c1Note) = []) ∧
    (writtenPaths (memoStep c1Input c10NoteZero) = ["F/memos/z.md"] ∧
      skippedPaths (memoStep c1Input c10NoteZero) = []) :=
  ⟨c10_zero_timestamp c10InputZeroWatermark c1Note (Or.inl rfl),
    c10_zero_timestamp c1Input c10NoteZero (Or.inr rfl)⟩

/-- Counterexample to C9 as stated: `getFileName` is NOT pure across calls —
in `created_at` mode with an absent `createdAt` it falls back to the current
time, so two calls one minute apart return different strings. -/
theorem c9_filename_determinism_counterexample :
    getFileName 0 c9Note FileNameFormat.created_at ≠
      getFileName 60000 c9Note FileNameFormat.created_at := by
  decide

/-- C9 (amended): `getFileName` is a pure function of the note, the mode AND
the current time; its result is independent of the current time in the `id`
and `title` modes and in the `created_at` / `updated_at` modes whenever the
relevant timestamp is present and nonzero.  (With an absent or zero
timestamp the result is the formatted current time, which differs between
calls in different minutes — see the counterexample.) -/
theorem c9_filename_determinism (memo : Note) (format : FileNameFormat)
    (now1 now2 : Nat)
    (h : format = FileNameFormat.id ∨ format = FileNameFormat.title ∨
      (format = FileNameFormat.created_at ∧
        truthyTime memo.metadata.createdAt = true) ∨
      (format = FileNameFormat.updated_at ∧
        truthyTime memo.metadata.updatedAt = true)) :
    getFileName now1 memo format = getFileName now2 memo format := by
  rcases h with rfl | rfl | ⟨rfl, ht⟩ | ⟨rfl, ht⟩
  · rfl
  · rfl
  · cases hc : memo.metadata.createdAt with
    | none => rw [hc] at ht; simp [truthyTime] at ht
    | some t =>
      have ht0 : ¬ t = 0 := by
        rw [hc] at ht
        simpa [truthyTime] using ht
      simp [getFileName, hc, ht0]
  · cases hc : memo.metadata.updatedAt with
    | none => rw [hc] at ht; simp [truthyTime] at ht
    | some t =>
      have ht0 : ¬ t = 0 := by
        rw [hc] at ht
        simpa [truthyTime] using ht
      simp [getFileName, hc, ht0]

/-- Witness for C9 (amended): with both timestamps present and nonzero,
calls at different current times agree in every mode. -/
theorem c9_filename_determinism_witness :
    getFileName 0 c9NoteStamped FileNameFormat.created_at =
      getFileName 60000 c9NoteStamped FileNameFormat.created_at ∧
    getFileName 0 c9NoteStamped FileNameFormat.updated_at =
      getFileName 60000 c9NoteStamped FileNameFormat.updated_at ∧
    getFileName 0 c9NoteStamped FileNameFormat.id =
      getFileName 60000 c9NoteStamped FileNameFormat.id ∧
    getFileName 0 c9NoteStamped FileNameFormat.title =
      getFileName 60000 c9NoteStamped FileNameFormat.title :=
  ⟨c9_filename_determinism c9NoteStamped _ 0 60000
      (Or.inr (Or.inr (Or.inl ⟨rfl, by decide⟩))),
    c9_filename_determinism c9NoteStamped _ 0 60000
      (Or.inr (Or.inr (Or.inr ⟨rfl, by decide⟩))),
    c9_filename_determinism c9NoteStamped _ 0 60000 (Or.inl rfl),
    c9_filename_determinism c9NoteStamped _ 0 60000 (Or.inr (Or.inl rfl))⟩

/-- C7: remote-fetch failure atomicity.  With a valid configuration, when
the remote fetch rejects, the whole run aborts: the trace is exactly the
start notice, the persistent failure notice and the logged error — no
folder creation, no write attempt, no removal, and no `saveData` (the
stored watermark and settings are untouched). -/
theorem c7_fetch_failure_atomic (inp : SyncInput)
    (hb : inp.settings.auth.baseUrl ≠ "")
    (hc : truthyOptStr inp.settings.auth.accessToken = true ∨
      truthyOptStr inp.settings.auth.openId = true)
    (hf : inp.fetch = Except.error ()) :
    sync inp = [Event.notice startedMsg, Event.notice failedMsg, Event.log] ∧
    (∀ e ∈ sync inp, isFsEvent e = false ∧ isSaveEvent e = false) ∧
    savedTimes (sync inp) = [] := by
  have h := sync_fetch_error inp hb hc hf
  refine ⟨h, ?_, ?_⟩
  · rw [h]
    intro e he
    simp only [List.mem_cons, List.not_mem_nil, or_false] at he
    rcases he with rfl | rfl | rfl <;> exact ⟨rfl, rfl⟩
  · rw [h]
    rfl

/-- Witness for C7 at a concrete failing fetch. -/
theorem c7_fetch_failure_atomic_witness :
    sync c7Input =
      [Event.notice startedMsg, Event.notice failedMsg, Event.log] ∧
    (∀ e ∈ sync c7Input, isFsEvent e = false ∧ isSaveEvent e = false) ∧
    savedTimes (sync c7Input) = [] :=
  c7_fetch_failure_atomic c7Input (by decide) (Or.inl (by decide)) rfl

/-- Counterexample to C8 as stated: a configuration with an EMPTY target
folder name (but valid base URL and token) is NOT rejected — `sync` performs
filesystem interaction: it creates folders and writes the note to
`memos/a.md` (the leading slash of `"/memos/a.md"` is eaten by
`normalizePath`). -/
theorem c8_failfast_counterexample :
    c8Input.settings.folderToSync = "" ∧
    (sync c8Input).any isFsEvent = true ∧
    writtenPaths (sync c8Input) = ["memos/a.md"] := by
  refine ⟨rfl, ?_, ?_⟩ <;> decide

/-- C8 (amended): a missing base URL, or missing credentials (no access
token and no open ID), fail fast — the run is a single notice with no
filesystem interaction and no settings mutation.  An empty folder name,
however, is only refused by the settings tab's `onChange` handler (which
leaves the stored settings unchanged and shows a notice); `sync` itself
never checks it. -/
theorem c8_config_failfast (inp : SyncInput)
    (s : MemosSyncPluginSettings) (value : String) :
    (inp.settings.auth.baseUrl = "" →
      sync inp = [Event.notice baseUrlMsg] ∧
      (∀ e ∈ sync inp, isFsEvent e = false ∧ isSaveEvent e = false)) ∧
    (inp.settings.auth.baseUrl ≠ "" →
      truthyOptStr inp.settings.auth.accessToken = false →
      truthyOptStr inp.settings.auth.openId = false →
      sync inp = [Event.notice tokenMsg] ∧
      (∀ e ∈ sync inp, isFsEvent e = false ∧ isSaveEvent e = false)) ∧
    (value = "" →
      folderToSyncOnChange s value = (s, [Event.notice folderMsg])) := by
  refine ⟨?_, ?_, ?_⟩
  · intro h
    have he := sync_baseUrl_empty inp h
    refine ⟨he, ?_⟩
    rw [he]
    intro e hev
    simp only [List.mem_cons, List.not_mem_nil, or_false] at hev
    subst hev
    exact ⟨rfl, rfl⟩
  · intro h1 h2 h3
    have he := sync_missing_credentials inp h1 h2 h3
    refine ⟨he, ?_⟩
    rw [he]
    intro e hev
    simp only [List.mem_cons, List.not_mem_nil, or_false] at hev
    subst hev
    exact ⟨rfl, rfl⟩
  · intro h
    simp [folderToSyncOnChange, h]

/-- Witness for C8 (amended): a missing base URL and missing credentials are
each rejected with a single notice, and the settings tab refuses the empty
folder name without touching the settings. -/
theorem c8_config_failfast_witness :
    (sync c8InputNoUrl = [Event.notice baseUrlMsg] ∧
      (∀ e ∈ sync c8InputNoUrl, isFsEvent e = false ∧ isSaveEvent e = false)) ∧
    (sync c8InputNoCreds = [Event.notice tokenMsg] ∧
      (∀ e ∈ sync c8InputNoCreds,
        isFsEvent e = false ∧ isSaveEvent e = false)) ∧
    folderToSyncOnChange c1Settings "" =
      (c1Settings, [Event.notice folderMsg]) :=
  ⟨(c8_config_failfast c8InputNoUrl c1Settings "").1 rfl,
    (c8_config_failfast c8InputNoCreds c1Settings "").2.1 (by decide) rfl rfl,
    (c8_config_failfast c8InputNoUrl c1Settings "").2.2 rfl⟩

/-- C3: what the code actually does at the failing input.  The claim says an
attachment skip leaves the rest of the run untouched; but the `return`
statements inside the `for...of` attachment loop exit the whole `sync`
function.  At `c3Input` the first attachment's target exists, so the run
ends silently after the start notice: the second attachment
(`F/resources/b.png`) is never written, the stale file
(`F/resources/old.png`) is never deleted, no success notice is shown and
the watermark is never saved.  (The older `forEach` variant of the source
and the specification both continue with the next attachment.) -/
theorem c3_skip_aborts_run :
    sync c3Input = [Event.notice startedMsg] ∧
    (∀ e ∈ sync c3Input, writeTarget e ≠ some "F/resources/b.png") ∧
    removedPaths (sync c3Input) = [] ∧
    savedTimes (sync c3Input) = [] ∧
    noticeMsgs (sync c3Input) = [startedMsg] := by
  refine ⟨rfl, ?_, rfl, rfl, rfl⟩
  decide

/-- Counterexample to C5 as stated: with folder name `"f/"` the note's write
target is normalized to `f/memos/a.md`, while the retained set keeps the
un-normalized string `f//memos/a.md`; the pre-existing file `f/memos/a.md`
is therefore both (re)written and deleted in the same run. -/
theorem c5_write_delete_overlap_counterexample :
    "f/memos/a.md" ∈ writtenPaths (sync c5Input) ∧
    "f/memos/a.md" ∈ removedPaths (sync c5Input) := by
  decide

/-- C5 (amended): write/delete disjointness holds provided `normalizePath`
leaves every concatenated target path unchanged (e.g. a clean folder name
and clean attachment filenames), and the vault listings do not stray into
the other collection's retained paths: no path is then both written
(successfully or not) and removed in the same run. -/
theorem c5_write_delete_disjoint (inp : SyncInput) (res : ReadMemosResult)
    (hf : inp.fetch = Except.ok res)
    (hmemo : ∀ n ∈ filteredMemos res,
      normalizePath (memoFileRaw inp.settings inp.now n) =
        memoFileRaw inp.settings inp.now n)
    (hres : ∀ r ∈ res.files,
      normalizePath (resourceFileRaw inp.settings r) =
        resourceFileRaw inp.settings r)
    (hx1 : ∀ p ∈ inp.resourcesListing,
      p ∉ memosInAPI inp.settings inp.now res)
    (hx2 : ∀ p ∈ inp.memosListing, p ∉ resourcesInAPI inp.settings res) :
    ∀ q ∈ writtenPaths (sync inp), q ∉ removedPaths (sync inp) := by
  intro q hqw hqr
  rcases mem_writtenPaths_sync inp res q hf hqw with ⟨n, hn, rfl⟩ | ⟨r, hr, rfl⟩
  · have hqmem : memoPath inp.settings inp.now n ∈
        memosInAPI inp.settings inp.now res := by
      rw [memoPath, hmemo n hn]
      exact List.mem_map_of_mem _ hn
    rcases mem_removedPaths_sync inp res _ hf hqr with ⟨_, hnot⟩ | ⟨hin, _⟩
    · exact hnot hqmem
    · exact hx1 _ hin hqmem
  · have hqmem : resourcePath inp.settings r ∈
        resourcesInAPI inp.settings res := by
      rw [resourcePath, hres r hr]
      exact List.mem_map_of_mem _ hr
    rcases mem_removedPaths_sync inp res _ hf hqr with ⟨hin, _⟩ | ⟨_, hnot⟩
    · exact hx2 _ hin hqmem
    · exact hnot hqmem

/-- Witness for C5 (amended): with the clean folder name `F` the written
note `F/memos/a.md` is not among the removals of the run (which delete the
stale `F/memos/stale.md` and `F/resources/x.png`). -/
theorem c5_write_delete_disjoint_witness :
    "F/memos/a.md" ∈ writtenPaths (sync c5CleanInput) ∧
    "F/memos/a.md" ∉ removedPaths (sync c5CleanInput) :=
  ⟨by decide,
    c5_write_delete_disjoint c5CleanInput c5CleanRes rfl (by decide)
      (by decide) (by decide) (by decide) "F/memos/a.md" (by decide)⟩

/-- Counterexample to C4 as stated: under the `title` naming mode an
archived note and a live note share the title `x`; the archived note's
corresponding path `F/memos/x.md` IS in the retained set (contributed by the
live note), and the existing local file at that path is NOT scheduled for
deletion (the run removes nothing). -/
theorem c4_archived_filtering_counterexample :
    c4ArchNote.metadata.isArchived = true ∧
    memoFileRaw c4Input.settings c4Input.now c4ArchNote = "F/memos/x.md" ∧
    "F/memos/x.md" ∈ memosInAPI c4Input.settings c4Input.now c4Res ∧
    "F/memos/x.md" ∈ c4Input.memosListing ∧
    removedPaths (sync c4Input) = [] := by
  refine ⟨rfl, ?_, ?_, ?_, ?_⟩ <;> decide

/-- C4 (amended): an archived note contributes nothing of its own to the
retained set.  Provided no live (non-archived) note and no attachment maps
to the archived note's target path, that path is absent from the retained
set, is never written, and — when a file at it is listed, the attachment
loop completes and no removal fails — it is scheduled for deletion. -/
theorem c4_archived_filtering (inp : SyncInput) (res : ReadMemosResult)
    (memo : Note)
    (hb : inp.settings.auth.baseUrl ≠ "")
    (hc : truthyOptStr inp.settings.auth.accessToken = true ∨
      truthyOptStr inp.settings.auth.openId = true)
    (hf : inp.fetch = Except.ok res)
    (_hmem : memo ∈ res.notes)
    (_harch : memo.metadata.isArchived = true)
    (hnocoll : ∀ n ∈ res.notes, n.metadata.isArchived = false →
      memoFileRaw inp.settings inp.now n ≠
        memoFileRaw inp.settings inp.now memo ∧
      memoPath inp.settings inp.now n ≠
        memoFileRaw inp.settings inp.now memo)
    (hnores : ∀ r ∈ res.files,
      resourcePath inp.settings r ≠ memoFileRaw inp.settings inp.now memo)
    (hr : attachmentLoopCompletes inp res)
    (hrf : inp.removeFailures = [])
    (hlist : memoFileRaw inp.settings inp.now memo ∈ inp.memosListing) :
    memoFileRaw inp.settings inp.now memo ∉
      memosInAPI inp.settings inp.now res ∧
    memoFileRaw inp.settings inp.now memo ∉ writtenPaths (sync inp) ∧
    memoFileRaw inp.settings inp.now memo ∈ removedPaths (sync inp) := by
  have hpnotin : memoFileRaw inp.settings inp.now memo ∉
      memosInAPI inp.settings inp.now res := by
    intro hin
    obtain ⟨n, hn, he⟩ := List.mem_map.1 hin
    have hn2 := List.mem_filter.1 hn
    have hnarch : n.metadata.isArchived = false := by
      simpa using hn2.2
    exact (hnocoll n hn2.1 hnarch).1 he
  refine ⟨hpnotin, ?_, ?_⟩
  · intro hw
    rcases mem_writtenPaths_sync inp res _ hf hw with ⟨n, hn, he⟩ | ⟨r, hrr, he⟩
    · have hn2 := List.mem_filter.1 hn
      have hnarch : n.metadata.isArchived = false := by
        simpa using hn2.2
      exact (hnocoll n hn2.1 hnarch).2 he.symm
    · exact hnores r hrr he.symm
  · rw [removedPaths_sync_ok inp res hb hc hf,
      removedPaths_syncBody_complete inp res hr hrf]
    refine List.mem_append.2 (Or.inl (List.mem_filter.2 ⟨hlist, ?_⟩))
    simpa using hpnotin

/-- Witness for C4 (amended): under the `id` mode the archived note `1` maps
to `F/memos/1.md`, which no live note or attachment produces; the path is
outside the retained set, never written, and removed. -/
theorem c4_archived_filtering_witness :
    "F/memos/1.md" ∉ memosInAPI c4WInput.settings c4WInput.now c4WRes ∧
    "F/memos/1.md" ∉ writtenPaths (sync c4WInput) ∧
    "F/memos/1.md" ∈ removedPaths (sync c4WInput) :=
  c4_archived_filtering c4WInput c4WRes c4ArchNote (by decide)
    (Or.inl (by decide)) rfl (by decide) rfl (by decide) (by decide)
    (by decide) rfl (by decide)

/-- Counterexample to C2 as stated: the existing attachment
`F/resources/pic.png` makes the attachment loop `return` out of `sync`
before the deletion phase, so the stale local note `F/memos/stale.md` —
which is outside the (empty) retained note set — is never deleted. -/
theorem c2_deletion_completeness_counterexample :
    "F/memos/stale.md" ∈ c2Input.memosListing ∧
    memosInAPI c2Input.settings c2Input.now c2CRes = [] ∧
    removedPaths (sync c2Input) = [] := by
  refine ⟨?_, ?_, ?_⟩ <;> decide

/-- C2 (amended): provided the attachment loop completes (no attachment
skip aborts the run) and no removal fails, every listed path outside its
collection's retained set is deleted exactly once (listings assumed
duplicate-free and disjoint, as `adapter.list` returns them), and a path in
the retained note set — including notes whose write was skipped by the
watermark, since the retained set is built from the full filtered snapshot
— is never deleted. -/
theorem c2_deletion_completeness (inp : SyncInput) (res : ReadMemosResult)
    (hb : inp.settings.auth.baseUrl ≠ "")
    (hc : truthyOptStr inp.settings.auth.accessToken = true ∨
      truthyOptStr inp.settings.auth.openId = true)
    (hf : inp.fetch = Except.ok res)
    (hr : attachmentLoopCompletes inp res)
    (hrf : inp.removeFailures = [])
    (hnd1 : inp.memosListing.Nodup)
    (hnd2 : inp.resourcesListing.Nodup)
    (hdisj : ∀ p ∈ inp.memosListing, p ∉ inp.resourcesListing) :
    (∀ p ∈ inp.memosListing, p ∉ memosInAPI inp.settings inp.now res →
      (removedPaths (sync inp)).count p = 1) ∧
    (∀ p ∈ inp.resourcesListing, p ∉ resourcesInAPI inp.settings res →
      (removedPaths (sync inp)).count p = 1) ∧
    (∀ p ∈ memosInAPI inp.settings inp.now res, p ∉ inp.resourcesListing →
      p ∉ removedPaths (sync inp)) := by
  have heq : removedPaths (sync inp) =
      (inp.memosListing.filter fun q =>
        !(memosInAPI inp.settings inp.now res).contains q) ++
      (inp.resourcesListing.filter fun q =>
        !(resourcesInAPI inp.settings res).contains q) := by
    rw [removedPaths_sync_ok inp res hb hc hf,
      removedPaths_syncBody_complete inp res hr hrf]
  refine ⟨?_, ?_, ?_⟩
  · intro p hp hpn
    rw [heq, List.count_append]
    have h1 : (inp.memosListing.filter fun q =>
        !(memosInAPI inp.settings inp.now res).contains q).count p = 1 := by
      rw [List.count_filter (by simpa using hpn)]
      exact List.count_eq_one_of_mem hnd1 hp
    have h2 : (inp.resourcesListing.filter fun q =>
        !(resourcesInAPI inp.settings res).contains q).count p = 0 :=
      List.count_eq_zero_of_not_mem
        (fun hmem => hdisj p hp (List.mem_of_mem_filter hmem))
    rw [h1, h2]
  · intro p hp hpn
    rw [heq, List.count_append]
    have h1 : (inp.memosListing.filter fun q =>
        !(memosInAPI inp.settings inp.now res).contains q).count p = 0 :=
      List.count_eq_zero_of_not_mem
        (fun hmem => hdisj p (List.mem_of_mem_filter hmem) hp)
    have h2 : (inp.resourcesListing.filter fun q =>
        !(resourcesInAPI inp.settings res).contains q).count p = 1 := by
      rw [List.count_filter (by simpa using hpn)]
      exact List.count_eq_one_of_mem hnd2 hp
    rw [h1, h2]
  · intro p hpmem hpnres hqr
    rw [heq] at hqr
    rcases List.mem_append.1 hqr with hq | hq
    · have := (List.mem_filter.1 hq).2
      simp only [Bool.not_eq_true'] at this
      exact absurd hpmem (by simpa using this)
    · exact hpnres (List.mem_of_mem_filter hq)

/-- Witness for C2 (amended): with an empty remote snapshot the stale
`F/memos/s1.md` and `F/resources/x.png` are each deleted exactly once. -/
theorem c2_deletion_completeness_witness :
    (removedPaths (sync c2WInput)).count "F/memos/s1.md" = 1 ∧
    (removedPaths (sync c2WInput)).count "F/resources/x.png" = 1 :=
  ⟨(c2_deletion_completeness c2WInput c2WRes (by decide)
      (Or.inl (by decide)) rfl (by decide) rfl (by decide) (by decide)
      (by decide)).1 "F/memos/s1.md" (by decide) (by decide),
    (c2_deletion_completeness c2WInput c2WRes (by decide)
      (Or.inl (by decide)) rfl (by decide) rfl (by decide) (by decide)
      (by decide)).2.1 "F/resources/x.png" (by decide) (by decide)⟩

/-- Counterexample to C6 as stated: a single failed `adapter.remove`
(`F/memos/s1.md`) is NOT recovered per entry — it throws into the outer
catch, so the rest of the deletion batch (`F/memos/s2.md`, also stale) is
never processed and the watermark update is skipped (failure notice shown
instead of success). -/
theorem c6_per_entry_failure_counterexample :
    "F/memos/s2.md" ∈ c6Input.memosListing ∧
    memosInAPI c6Input.settings c6Input.now c6Res = [] ∧
    "F/memos/s2.md" ∉ removedPaths (sync c6Input) ∧
    savedTimes (sync c6Input) = [] ∧
    noticeMsgs (sync c6Input) = [startedMsg, failedMsg] := by
  refine ⟨?_, ?_, ?_, ?_, ?_⟩ <;> decide

/-- C6 (amended): per-entry WRITE failures (note writes, attachment writes)
and a failing `saveData` are recovered locally — with no removal failure the
run still deletes every stale path, shows the success notice and attempts
the watermark update, for ANY set of failing writes; but a DELETE failure
aborts the remaining deletion batch, suppresses the success notice and
blocks the watermark update. -/
theorem c6_per_entry_failure (inp : SyncInput) (res : ReadMemosResult)
    (hb : inp.settings.auth.baseUrl ≠ "")
    (hc : truthyOptStr inp.settings.auth.accessToken = true ∨
      truthyOptStr inp.settings.auth.openId = true)
    (hf : inp.fetch = Except.ok res)
    (hr : attachmentLoopCompletes inp res) :
    (inp.removeFailures = [] →
      successMsg ∈ noticeMsgs (sync inp) ∧
      savedTimes (sync inp) = (if inp.saveFails then [] else [inp.now]) ∧
      removedPaths (sync inp) =
        (inp.memosListing.filter fun q =>
          !(memosInAPI inp.settings inp.now res).contains q) ++
        (inp.resourcesListing.filter fun q =>
          !(resourcesInAPI inp.settings res).contains q)) ∧
    (memoRemoveOk inp res = false →
      savedTimes (sync inp) = [] ∧
      successMsg ∉ noticeMsgs (sync inp) ∧
      failedMsg ∈ noticeMsgs (sync inp)) := by
  have hattach : attachmentsOk inp res = true := hr
  constructor
  · intro hrf
    have hm : memoRemoveOk inp res = true := by
      rw [memoRemoveOk, removeLoop_no_failures inp _ hrf]
    have hs : resourceRemoveOk inp res = true := by
      rw [resourceRemoveOk, removeLoop_no_failures inp _ hrf]
    refine ⟨?_, ?_, ?_⟩
    · rw [noticeMsgs_sync_ok inp res hb hc hf, noticeMsgs_syncBody,
        hattach, hm, hs]
      simp
    · rw [savedTimes_sync_ok inp res hb hc hf, savedTimes_syncBody,
        hattach, hm, hs]
      cases hsf : inp.saveFails <;> simp
    · rw [removedPaths_sync_ok inp res hb hc hf,
        removedPaths_syncBody_complete inp res hr hrf]
  · intro hm
    refine ⟨?_, ?_, ?_⟩
    · rw [savedTimes_sync_ok inp res hb hc hf, savedTimes_syncBody, hm]
      simp
    · rw [noticeMsgs_sync_ok inp res hb hc hf, noticeMsgs_syncBody,
        hattach, hm]
      simp only [Bool.not_true, Bool.not_false, Bool.true_or, if_true,
        if_false, Bool.false_eq_true]
      intro hmem
      simp only [List.mem_cons, List.not_mem_nil, or_false] at hmem
      rcases hmem with hmem | hmem <;> exact absurd hmem (by decide)
    · rw [noticeMsgs_sync_ok inp res hb hc hf, noticeMsgs_syncBody,
        hattach, hm]
      simp

/-- Witness for C6 (amended): the note write to `F/memos/a.md` fails at
`c6WInput`, yet the stale `F/memos/stale.md` is still deleted, the success
notice is shown and the watermark `13` is saved. -/
theorem c6_per_entry_failure_witness :
    successMsg ∈ noticeMsgs (sync c6WInput) ∧
    savedTimes (sync c6WInput) = [13] ∧
    removedPaths (sync c6WInput) = ["F/memos/stale.md"] :=
  (c6_per_entry_failure c6WInput c6WRes (by decide) (Or.inl (by decide))
    rfl (by decide)).1 rfl

end MemosSync
